import Mathlib

/-!
Shallow embedding of `CarbonLookasideRoute` (mcrouter's lookaside caching
route handle) and of its factory `createCarbonLookasideRoute`.

The embedding models:
  * the cache wire replies (`McGetReply`, `McLeaseGetReply`) with a
    result-class discriminant, an optional payload and a lease token;
  * the route configuration (`Route`), whose fields mirror the C++ members
    `keyPrefix_`, `keySuffix_`, `ttl_`, `carbonLookasideHelper_`,
    `leaseSettings_`, `child_`;
  * the reply codec as injected functions `ser`/`deser` (the C++ code uses
    a Carbon protocol writer/reader on opaque reply types);
  * the cache client as an oracle: one `McGetReply` for the plain GET and a
    function `Nat → McLeaseGetReply` giving the reply to the n-th LEASE_GET
    issued by the retry loop;
  * the effects of one `route()` call as an explicit trace: the list of
    cache wire operations issued (including the detached write), the list of
    cooperative sleep durations, and the number of `child.route` calls.
-/

namespace CarbonLookaside

/-- Result class of a cache reply (`isHitResult` / `isMissResult` / other). -/
inductive McResult where
  | hit
  | miss
  | other
deriving DecidableEq, Repr

/-- Reply to a plain `McGetRequest`: result class and optional payload bytes. -/
structure McGetReply where
  result : McResult
  value : Option (List Nat)
deriving DecidableEq, Repr

/-- Reply to a `McLeaseGetRequest`: result class, optional payload bytes and
a 64-bit lease token. -/
structure McLeaseGetReply where
  result : McResult
  value : Option (List Nat)
  leaseToken : Int
deriving DecidableEq, Repr

/-- `LeaseSettings` struct from the source, with its defaults. -/
structure LeaseSettings where
  enableLeases : Bool := false
  initialWaitMs : Int := 2
  maxWaitMs : Int := 500
  numRetries : Int := 10
deriving DecidableEq, Repr

/-- The user-supplied `CarbonLookasideHelper`: name, cache-candidate policy
and logical key builder. -/
structure Helper (Req : Type) where
  name : String
  cacheCandidate : Req → Bool
  buildKey : Req → String

/-- A cache wire operation issued by the route handle. -/
inductive CacheOp where
  | get (key : String)
  | leaseGet (key : String)
  | set (key : String) (value : List Nat) (exptime : Int)
  | leaseSet (key : String) (value : List Nat) (exptime : Int) (leaseToken : Int)
deriving DecidableEq, Repr

/-- The key carried by a cache wire operation. -/
def opKey : CacheOp → String
  | .get k => k
  | .leaseGet k => k
  | .set k _ _ => k
  | .leaseSet k _ _ _ => k

/-- Whether a cache wire operation is a write (`SET` or `LEASE_SET`). -/
def isWriteOp : CacheOp → Bool
  | .set _ _ _ => true
  | .leaseSet _ _ _ _ => true
  | _ => false

/-- `CarbonLookasideRoute`'s immutable per-instance state.  `ser`/`deser`
are the injected reply codec; `childRoute` is the child route handle's
routing function. -/
structure Route (Req R : Type) where
  keyPrefix : String
  keySuffix : String
  ttl : Int
  carbonLookasideHelper : Helper Req
  leaseSettings : LeaseSettings
  ser : R → List Nat
  deser : List Nat → R
  childRoute : Req → R

/-- `buildKeySuffix(keySplitSize)`: empty when `keySplitSize <= 1`,
otherwise `":ks"` followed by the decimal of `hostid % keySplitSize`. -/
def buildKeySuffix (keySplitSize : Nat) (hostid : Nat) : String :=
  if keySplitSize ≤ 1 then "" else ":ks" ++ toString (hostid % keySplitSize)

/-- The constructor `CarbonLookasideRoute(...)`: `keySuffix_` is computed
once, at construction, from the key-split size and the host id. -/
def mkCarbonLookasideRoute {Req R : Type} (child : Req → R) (keyPrefix : String)
    (keySplitSize : Nat) (hostid : Nat) (ttl : Int) (helper : Helper Req)
    (leaseSettings : LeaseSettings) (ser : R → List Nat) (deser : List Nat → R) :
    Route Req R :=
  { keyPrefix := keyPrefix
    keySuffix := buildKeySuffix keySplitSize hostid
    ttl := ttl
    carbonLookasideHelper := helper
    leaseSettings := leaseSettings
    ser := ser
    deser := deser
    childRoute := child }

/-- `buildKey(req)`: `keyPrefix_` ++ helper key ++ `keySuffix_`. -/
def buildKey {Req R : Type} (rt : Route Req R) (req : Req) : String :=
  rt.keyPrefix ++ rt.carbonLookasideHelper.buildKey req ++ rt.keySuffix

/-- Result of the read path: the optional deserialized reply, the lease
token handed back to `route()`, the cache wire operations issued and the
cooperative sleep durations (ms), in order. -/
structure ReadResult (R : Type) where
  reply : Option R
  leaseToken : Int
  ops : List CacheOp
  sleeps : List Int
deriving Repr

/-- The non-lease `carbonLookasideGet(key)`: on a hit whose payload is
present the payload is deserialized; any other outcome yields no reply. -/
def carbonLookasideGetPlain {Req R : Type} (rt : Route Req R)
    (cacheReply : McGetReply) : Option R :=
  if cacheReply.result = McResult.hit ∧ cacheReply.value.isSome then
    some (rt.deser (cacheReply.value.getD []))
  else
    none

/-- Body of the retry loop in `carbonLookasideLeaseGet`.  `attempt` is the
loop counter, `fuel` the number of remaining iterations
(`numRetries + 1 - attempt`), `w` the current `nextInterval`.  The callback
logic: a hit with payload deserializes and ends the loop; a miss with the
hot-miss token 1 retries; a miss with any other token ends the loop with
that token; any other outcome ends the loop with no reply and token 0.
A sleep of `w` ms precedes every attempt except the first, after which
`nextInterval` becomes `min (w * 2) maxWaitMs`. -/
def leaseGetLoop {R : Type} (deser : List Nat → R) (maxWaitMs : Int)
    (key : String) (oracle : Nat → McLeaseGetReply) :
    Nat → Nat → Int → ReadResult R
  | _, 0, _ => ⟨none, 0, [], []⟩
  | attempt, fuel + 1, w =>
    if (oracle attempt).result = McResult.hit ∧
        ((oracle attempt).value).isSome = true then
      ⟨some (deser (((oracle attempt).value).getD [])), 0,
        [CacheOp.leaseGet key], if attempt ≠ 0 then [w] else []⟩
    else if (oracle attempt).result = McResult.miss then
      if (oracle attempt).leaseToken = 1 then
        ⟨(leaseGetLoop deser maxWaitMs key oracle (attempt + 1) fuel
            (if attempt ≠ 0 then min (w * 2) maxWaitMs else w)).reply,
          (leaseGetLoop deser maxWaitMs key oracle (attempt + 1) fuel
            (if attempt ≠ 0 then min (w * 2) maxWaitMs else w)).leaseToken,
          CacheOp.leaseGet key ::
            (leaseGetLoop deser maxWaitMs key oracle (attempt + 1) fuel
              (if attempt ≠ 0 then min (w * 2) maxWaitMs else w)).ops,
          (if attempt ≠ 0 then [w] else []) ++
            (leaseGetLoop deser maxWaitMs key oracle (attempt + 1) fuel
              (if attempt ≠ 0 then min (w * 2) maxWaitMs else w)).sleeps⟩
      else
        ⟨none, (oracle attempt).leaseToken, [CacheOp.leaseGet key],
          if attempt ≠ 0 then [w] else []⟩
    else
      ⟨none, 0, [CacheOp.leaseGet key], if attempt ≠ 0 then [w] else []⟩

/-- `carbonLookasideLeaseGet(key, leaseToken)`: runs the retry loop for
`attempt = 0 .. numRetries` starting from `nextInterval = initialWaitMs`. -/
def carbonLookasideLeaseGet {Req R : Type} (rt : Route Req R) (key : String)
    (oracle : Nat → McLeaseGetReply) : ReadResult R :=
  leaseGetLoop rt.deser rt.leaseSettings.maxWaitMs key oracle 0
    (rt.leaseSettings.numRetries + 1).toNat rt.leaseSettings.initialWaitMs

/-- The read-path dispatcher `carbonLookasideGet(key, leaseToken)`: lease
read when leases are enabled, plain read otherwise (token stays 0). -/
def carbonLookasideGet {Req R : Type} (rt : Route Req R) (key : String)
    (getOracle : McGetReply) (leaseOracle : Nat → McLeaseGetReply) :
    ReadResult R :=
  if rt.leaseSettings.enableLeases then
    carbonLookasideLeaseGet rt key leaseOracle
  else
    ⟨carbonLookasideGetPlain rt getOracle, 0, [CacheOp.get key], []⟩

/-- The non-lease `carbonLookasideSet(key, reply)`: one `SET` carrying the
serialized reply with `exptime = ttl_`. -/
def carbonLookasideSetPlain {Req R : Type} (rt : Route Req R) (key : String)
    (reply : R) : List CacheOp :=
  [CacheOp.set key (rt.ser reply) rt.ttl]

/-- `carbonLookasideLeaseSet(key, reply, leaseToken)`: one `LEASE_SET`
carrying the serialized reply, `exptime = ttl_` and the lease token. -/
def carbonLookasideLeaseSet {Req R : Type} (rt : Route Req R) (key : String)
    (reply : R) (leaseToken : Int) : List CacheOp :=
  [CacheOp.leaseSet key (rt.ser reply) rt.ttl leaseToken]

/-- The write-path dispatcher `carbonLookasideSet(key, reply, leaseToken)`:
a lease write when leases are enabled and the token is nonzero, otherwise a
plain write. -/
def carbonLookasideSet {Req R : Type} (rt : Route Req R) (key : String)
    (reply : R) (leaseToken : Int) : List CacheOp :=
  if rt.leaseSettings.enableLeases ∧ leaseToken ≠ 0 then
    carbonLookasideLeaseSet rt key reply leaseToken
  else
    carbonLookasideSetPlain rt key reply

/-- Observable outcome of one `route(req)` call: the reply returned to the
caller, the cache wire operations issued (reads first, then the detached
write if any), the sleeps performed and the number of `child_->route` calls. -/
structure RouteOutcome (R : Type) where
  reply : R
  ops : List CacheOp
  sleeps : List Int
  childCalls : Nat
deriving Repr

/-- `route(req)`: policy check, read, (hit: return) / (miss: child, then
detached write), return the child's reply. -/
def route {Req R : Type} (rt : Route Req R) (getOracle : McGetReply)
    (leaseOracle : Nat → McLeaseGetReply) (req : Req) : RouteOutcome R :=
  if rt.carbonLookasideHelper.cacheCandidate req then
    let key := buildKey rt req
    let rd := carbonLookasideGet rt key getOracle leaseOracle
    match rd.reply with
    | some r => ⟨r, rd.ops, rd.sleeps, 0⟩
    | none =>
      let reply := rt.childRoute req
      ⟨reply, rd.ops ++ carbonLookasideSet rt key reply rd.leaseToken,
        rd.sleeps, 1⟩
  else
    ⟨rt.childRoute req, [], [], 1⟩

/-! ### Lease retry loop: supporting definitions and lemmas -/

/-- The backoff wait sequence: `waitSeqFrom mx w n` is `nextInterval` at the
time of the `(n+1)`-st sleep, starting from `w` and doubling, capped at `mx`. -/
def waitSeqFrom (mx : Int) (w : Int) : Nat → Int
  | 0 => w
  | n + 1 => min (waitSeqFrom mx w n * 2) mx

/-- A lease reply carrying the hot-miss sentinel: a miss with token 1. -/
def isHotMiss (r : McLeaseGetReply) : Prop :=
  r.result = McResult.miss ∧ r.leaseToken = 1

instance (r : McLeaseGetReply) : Decidable (isHotMiss r) :=
  inferInstanceAs (Decidable (_ ∧ _))

/-! ### Concrete instances used by the witnesses -/

/-- A deterministic helper: always a candidate, logical key `"k"`. -/
def demoHelper : Helper Unit :=
  { name := "demo", cacheCandidate := fun _ => true, buildKey := fun _ => "k" }

/-- A helper whose `cacheCandidate` is always false. -/
def demoHelperNo : Helper Unit :=
  { name := "demo", cacheCandidate := fun _ => false, buildKey := fun _ => "k" }

/-- A lease-disabled route over `Unit` requests and `Nat` replies, with a
one-byte codec and a child that always answers `5`. -/
def demoRouteNoLease : Route Unit Nat :=
  { keyPrefix := "p:"
    keySuffix := ""
    ttl := 10
    carbonLookasideHelper := demoHelper
    leaseSettings := {}
    ser := fun n => [n]
    deser := fun bs => bs.headD 0
    childRoute := fun _ => 5 }

/-- The lease-disabled route with the always-false candidate policy. -/
def demoRouteNoCand : Route Unit Nat :=
  { demoRouteNoLease with carbonLookasideHelper := demoHelperNo }

/-- A lease-enabled route: `initialWaitMs = 2`, `maxWaitMs = 8`,
`numRetries = 3`. -/
def demoRouteLease : Route Unit Nat :=
  { demoRouteNoLease with
    leaseSettings :=
      { enableLeases := true, initialWaitMs := 2, maxWaitMs := 8,
        numRetries := 3 } }

/-- A plain-GET hit whose payload deserializes to `7`. -/
def demoHitReply : McGetReply := ⟨McResult.hit, some [7]⟩

/-- A plain-GET miss. -/
def demoMissReply : McGetReply := ⟨McResult.miss, none⟩

/-- A lease oracle that always answers with the hot-miss sentinel. -/
def demoHotOracle : Nat → McLeaseGetReply := fun _ => ⟨McResult.miss, none, 1⟩

/-- A lease oracle: miss with token 42 on the first attempt. -/
def demoTokenOracle : Nat → McLeaseGetReply := fun _ => ⟨McResult.miss, none, 42⟩

/-- Scenario S3's lease oracle: the hot-miss sentinel on attempts 0..2,
then a miss with token 42 on attempt 3. -/
def demoS3Oracle : Nat → McLeaseGetReply :=
  fun n => if n < 3 then ⟨McResult.miss, none, 1⟩ else ⟨McResult.miss, none, 42⟩

/-- A lease oracle answering a miss with lease token 0. -/
def demoZeroOracle : Nat → McLeaseGetReply := fun _ => ⟨McResult.miss, none, 0⟩

/-! ### The factory `createCarbonLookasideRoute` -/

/-- The child route handle as seen by the factory: its routing function and
the visit trace a `RouteHandleTraverser` produces on its subtree. -/
structure ChildHandle (Req R : Type) where
  route : Req → R
  traverse : Req → List String

/-- A route handle produced by the factory: either the raw child (returned
unwrapped when the cache router or client cannot be created) or the child
wrapped in a `CarbonLookasideRoute`. -/
inductive Handle (Req R : Type) where
  | raw (c : ChildHandle Req R)
  | lookaside (rt : Route Req R) (c : ChildHandle Req R)

/-- Reply observed by the caller of `route(req)` on a factory-produced
handle. -/
def Handle.routeReply {Req R : Type} :
    Handle Req R → McGetReply → (Nat → McLeaseGetReply) → Req → R
  | .raw c, _, _, req => c.route req
  | .lookaside rt _, g, l, req => (CarbonLookaside.route rt g l req).reply

/-- Visit trace of `traverse(req, t)` on a factory-produced handle: the
lookaside route forwards the traverser to its child only. -/
def Handle.traverseVisits {Req R : Type} : Handle Req R → Req → List String
  | .raw c, req => c.traverse req
  | .lookaside _ c, req => c.traverse req

/-- Tail of `createCarbonLookasideRoute(factory, json)`: after parsing, the
factory obtains a cache router and creates a cache client; if either step
fails it returns the raw child (`return std::move(child)`), otherwise it
wraps the child in a `CarbonLookasideRoute`.  `routerCreated` models
`createCarbonLookasideRouter(persistenceId, flavor)` returning non-null and
`clientCreated` models `router->createClient(0)` not throwing. -/
def createCarbonLookasideRoute {Req R : Type} (child : ChildHandle Req R)
    (routerCreated clientCreated : Bool) (keyPrefix : String)
    (keySplitSize hostid : Nat) (ttl : Int) (helper : Helper Req)
    (leaseSettings : LeaseSettings) (ser : R → List Nat)
    (deser : List Nat → R) : Handle Req R :=
  if routerCreated = false then
    Handle.raw child
  else if clientCreated = false then
    Handle.raw child
  else
    Handle.lookaside
      (mkCarbonLookasideRoute child.route keyPrefix keySplitSize hostid ttl
        helper leaseSettings ser deser) child

/-- A concrete child handle for the factory witnesses. -/
def demoChildHandle : ChildHandle Unit Nat :=
  { route := fun _ => 5, traverse := fun _ => ["child"] }


theorem waitSeqFrom_shift (mx w : Int) (n : Nat) :
    waitSeqFrom mx (min (w * 2) mx) n = waitSeqFrom mx w (n + 1) := by
  induction n with
  | zero => rfl
  | succ n ih => simp only [waitSeqFrom, ih]

/-- Every operation the retry loop issues is a `LEASE_GET` on the given key,
and at most `fuel` of them are issued. -/
theorem leaseGetLoop_ops {R : Type} (d : List Nat → R) (mx : Int)
    (key : String) (oracle : Nat → McLeaseGetReply) :
    ∀ (fuel a : Nat) (w : Int),
      (leaseGetLoop d mx key oracle a fuel w).ops.length ≤ fuel ∧
      ∀ op ∈ (leaseGetLoop d mx key oracle a fuel w).ops,
        op = CacheOp.leaseGet key := by
  intro fuel
  induction fuel with
  | zero => intro a w; simp [leaseGetLoop]
  | succ fuel ih =>
    intro a w
    unfold leaseGetLoop
    by_cases h1 : (oracle a).result = McResult.hit ∧
        ((oracle a).value).isSome = true
    · rw [if_pos h1]; simp
    · rw [if_neg h1]
      by_cases h2 : (oracle a).result = McResult.miss
      · rw [if_pos h2]
        by_cases h3 : (oracle a).leaseToken = 1
        · rw [if_pos h3]
          obtain ⟨ihl, ihm⟩ :=
            ih (a + 1) (if a ≠ 0 then min (w * 2) mx else w)
          refine ⟨?_, ?_⟩
          · simp only [List.length_cons]
            omega
          · intro op hop
            simp only [List.mem_cons] at hop
            rcases hop with hop | hop
            · exact hop
            · exact ihm op hop
        · rw [if_neg h3]; simp
      · rw [if_neg h2]; simp

/-- For a sub-loop starting at a nonzero attempt counter, a sleep of the
current interval precedes every issued `LEASE_GET`, following the doubling
sequence capped at `mx`. -/
theorem leaseGetLoop_sleeps_pos {R : Type} (d : List Nat → R) (mx : Int)
    (key : String) (oracle : Nat → McLeaseGetReply) :
    ∀ (fuel a : Nat) (w : Int), a ≠ 0 →
      (leaseGetLoop d mx key oracle a fuel w).sleeps =
        (List.range (leaseGetLoop d mx key oracle a fuel w).ops.length).map
          (waitSeqFrom mx w) := by
  intro fuel
  induction fuel with
  | zero => intro a w _; simp [leaseGetLoop]
  | succ fuel ih =>
    intro a w ha
    unfold leaseGetLoop
    by_cases h1 : (oracle a).result = McResult.hit ∧
        ((oracle a).value).isSome = true
    · rw [if_pos h1, if_pos ha]
      simp [List.range_succ, waitSeqFrom]
    · rw [if_neg h1]
      by_cases h2 : (oracle a).result = McResult.miss
      · rw [if_pos h2]
        by_cases h3 : (oracle a).leaseToken = 1
        · rw [if_pos h3, if_pos ha, if_pos ha]
          have ihs := ih (a + 1) (min (w * 2) mx) (Nat.succ_ne_zero a)
          simp only [List.length_cons, ihs, List.range_succ_eq_map,
            List.map_cons, List.map_map, List.singleton_append,
            List.cons.injEq]
          constructor
          · rfl
          · apply List.map_congr_left
            intro i _
            simp only [Function.comp_apply, waitSeqFrom_shift]
        · rw [if_neg h3, if_pos ha]
          simp [List.range_succ, waitSeqFrom]
      · rw [if_neg h2, if_pos ha]
        simp [List.range_succ, waitSeqFrom]

/-- The full loop (started at attempt 0) sleeps only before attempts after
the first: the sleep durations are `waitSeqFrom mx w 0, 1, ...`, one fewer
than the number of `LEASE_GET`s issued. -/
theorem leaseGetLoop_sleeps_zero {R : Type} (d : List Nat → R) (mx : Int)
    (key : String) (oracle : Nat → McLeaseGetReply) (fuel : Nat) (w : Int) :
    (leaseGetLoop d mx key oracle 0 fuel w).sleeps =
      (List.range ((leaseGetLoop d mx key oracle 0 fuel w).ops.length - 1)).map
        (waitSeqFrom mx w) := by
  have hz : ¬ ((0 : Nat) ≠ 0) := fun h => h rfl
  match fuel with
  | 0 => simp [leaseGetLoop]
  | fuel + 1 =>
    unfold leaseGetLoop
    by_cases h1 : (oracle 0).result = McResult.hit ∧
        ((oracle 0).value).isSome = true
    · rw [if_pos h1, if_neg hz]
      simp
    · rw [if_neg h1]
      by_cases h2 : (oracle 0).result = McResult.miss
      · by_cases h3 : (oracle 0).leaseToken = 1
        · rw [if_pos h2, if_pos h3, if_neg hz, if_neg hz]
          have hpos := leaseGetLoop_sleeps_pos d mx key oracle fuel 1 w
            Nat.one_ne_zero
          simp only [List.nil_append, List.length_cons,
            Nat.add_sub_cancel]
          exact hpos
        · rw [if_pos h2, if_neg h3, if_neg hz]
          simp
      · rw [if_neg h2, if_neg hz]
        simp

/-- If the first `i` lease replies are hot misses and reply `i` settles the
loop, the loop's outcome is determined by reply `i` and exactly `i + 1`
`LEASE_GET`s are issued. -/
theorem leaseGetLoop_settles {R : Type} (d : List Nat → R) (mx : Int)
    (key : String) (oracle : Nat → McLeaseGetReply) :
    ∀ (i fuel a : Nat) (w : Int), i < fuel →
      (∀ j, j < i → isHotMiss (oracle (a + j))) →
      (((oracle (a + i)).result = McResult.hit ∧
          ((oracle (a + i)).value).isSome →
        (leaseGetLoop d mx key oracle a fuel w).reply =
          some (d (((oracle (a + i)).value).getD [])) ∧
        (leaseGetLoop d mx key oracle a fuel w).leaseToken = 0 ∧
        (leaseGetLoop d mx key oracle a fuel w).ops.length = i + 1) ∧
       ((oracle (a + i)).result = McResult.miss ∧
          (oracle (a + i)).leaseToken ≠ 1 →
        (leaseGetLoop d mx key oracle a fuel w).reply = none ∧
        (leaseGetLoop d mx key oracle a fuel w).leaseToken =
          (oracle (a + i)).leaseToken ∧
        (leaseGetLoop d mx key oracle a fuel w).ops.length = i + 1)) := by
  intro i
  induction i with
  | zero =>
    intro fuel a w hif _
    match fuel, hif with
    | fuel + 1, _ =>
      unfold leaseGetLoop
      simp only [Nat.add_zero]
      constructor
      · intro hhit
        rw [if_pos hhit]
        exact ⟨rfl, rfl, rfl⟩
      · intro hmiss
        have hnothit : ¬ ((oracle a).result = McResult.hit ∧
            ((oracle a).value).isSome = true) := by
          intro hcontra
          rw [hcontra.1] at hmiss
          exact McResult.noConfusion hmiss.1
        rw [if_neg hnothit, if_pos hmiss.1, if_neg hmiss.2]
        exact ⟨rfl, rfl, rfl⟩
  | succ i ih =>
    intro fuel a w hif hprev
    match fuel, hif with
    | fuel + 1, hif2 =>
      have hhot : isHotMiss (oracle a) := by
        have := hprev 0 (Nat.succ_pos i)
        simpa using this
      have hnothit : ¬ ((oracle a).result = McResult.hit ∧
          ((oracle a).value).isSome = true) := by
        intro hcontra
        have hm := hhot.1
        rw [hcontra.1] at hm
        exact McResult.noConfusion hm
      have hfuel : i < fuel := by omega
      have hprev2 : ∀ j, j < i → isHotMiss (oracle (a + 1 + j)) := by
        intro j hj
        have := hprev (j + 1) (Nat.succ_lt_succ hj)
        have harith : a + (j + 1) = a + 1 + j := by omega
        rwa [harith] at this
      have harith2 : a + (i + 1) = a + 1 + i := by omega
      have ihres := ih fuel (a + 1)
        (if a ≠ 0 then min (w * 2) mx else w) hfuel hprev2
      unfold leaseGetLoop
      rw [if_neg hnothit, if_pos hhot.1, if_pos hhot.2, harith2]
      constructor
      · intro hhit
        obtain ⟨hr, ht, hl⟩ := ihres.1 hhit
        refine ⟨hr, ht, ?_⟩
        simp only [List.length_cons, hl]
      · intro hmiss
        obtain ⟨hr, ht, hl⟩ := ihres.2 hmiss
        refine ⟨hr, ht, ?_⟩
        simp only [List.length_cons, hl]

/-- If every reply is a hot miss, the loop exhausts its fuel: no reply,
token 0, and exactly `fuel` `LEASE_GET`s issued. -/
theorem leaseGetLoop_exhaust {R : Type} (d : List Nat → R) (mx : Int)
    (key : String) (oracle : Nat → McLeaseGetReply) :
    ∀ (fuel a : Nat) (w : Int),
      (∀ j, j < fuel → isHotMiss (oracle (a + j))) →
      (leaseGetLoop d mx key oracle a fuel w).reply = none ∧
      (leaseGetLoop d mx key oracle a fuel w).leaseToken = 0 ∧
      (leaseGetLoop d mx key oracle a fuel w).ops.length = fuel := by
  intro fuel
  induction fuel with
  | zero => intro a w _; simp [leaseGetLoop]
  | succ fuel ih =>
    intro a w hhot
    have hhot0 : isHotMiss (oracle a) := by
      have := hhot 0 (Nat.succ_pos fuel)
      simpa using this
    have hnothit : ¬ ((oracle a).result = McResult.hit ∧
        ((oracle a).value).isSome = true) := by
      intro hcontra
      have hm := hhot0.1
      rw [hcontra.1] at hm
      exact McResult.noConfusion hm
    have hrest := ih (a + 1) (if a ≠ 0 then min (w * 2) mx else w)
      (by
        intro j hj
        have := hhot (j + 1) (Nat.succ_lt_succ hj)
        have harith : a + (j + 1) = a + 1 + j := by omega
        rwa [harith] at this)
    unfold leaseGetLoop
    rw [if_neg hnothit, if_pos hhot0.1, if_pos hhot0.2]
    refine ⟨hrest.1, hrest.2.1, ?_⟩
    simp only [List.length_cons, hrest.2.2]

/-! ### Claim theorems: route orchestration -/

/-- C1: for every request with `cacheCandidate = true`, if the cache read
returns a cached reply, `route` returns that deserialized reply, calls
`child.route` zero times, and issues no operations beyond the read's. -/
theorem route_hit_returns_cached_reply {Req R : Type} (rt : Route Req R)
    (g : McGetReply) (l : Nat → McLeaseGetReply) (req : Req) (r : R)
    (hc : rt.carbonLookasideHelper.cacheCandidate req = true)
    (hr : (carbonLookasideGet rt (buildKey rt req) g l).reply = some r) :
    (route rt g l req).reply = r ∧ (route rt g l req).childCalls = 0 ∧
    (route rt g l req).ops = (carbonLookasideGet rt (buildKey rt req) g l).ops := by
  unfold route
  rw [hc]
  simp only [if_true, hr]
  exact ⟨trivial, trivial, trivial⟩

/-- Witness for C1 at a concrete hit. -/
theorem route_hit_returns_cached_reply_witness :
    demoRouteNoLease.carbonLookasideHelper.cacheCandidate () = true ∧
    (carbonLookasideGet demoRouteNoLease (buildKey demoRouteNoLease ())
      demoHitReply demoHotOracle).reply = some 7 ∧
    ((route demoRouteNoLease demoHitReply demoHotOracle ()).reply = 7 ∧
     (route demoRouteNoLease demoHitReply demoHotOracle ()).childCalls = 0 ∧
     (route demoRouteNoLease demoHitReply demoHotOracle ()).ops =
       (carbonLookasideGet demoRouteNoLease (buildKey demoRouteNoLease ())
         demoHitReply demoHotOracle).ops) :=
  ⟨rfl, rfl,
    route_hit_returns_cached_reply demoRouteNoLease demoHitReply demoHotOracle
      () 7 rfl rfl⟩

/-- C2: for every candidate request whose read yields no cached reply,
`route` calls `child.route` exactly once and returns the child's reply. -/
theorem route_miss_calls_child_once {Req R : Type} (rt : Route Req R)
    (g : McGetReply) (l : Nat → McLeaseGetReply) (req : Req)
    (hc : rt.carbonLookasideHelper.cacheCandidate req = true)
    (hr : (carbonLookasideGet rt (buildKey rt req) g l).reply = none) :
    (route rt g l req).reply = rt.childRoute req ∧
    (route rt g l req).childCalls = 1 := by
  unfold route
  rw [hc]
  simp only [if_true, hr]
  exact ⟨trivial, trivial⟩

/-- Witness for C2 at a concrete miss. -/
theorem route_miss_calls_child_once_witness :
    demoRouteNoLease.carbonLookasideHelper.cacheCandidate () = true ∧
    (carbonLookasideGet demoRouteNoLease (buildKey demoRouteNoLease ())
      demoMissReply demoHotOracle).reply = none ∧
    ((route demoRouteNoLease demoMissReply demoHotOracle ()).reply =
       demoRouteNoLease.childRoute () ∧
     (route demoRouteNoLease demoMissReply demoHotOracle ()).childCalls = 1) :=
  ⟨rfl, rfl,
    route_miss_calls_child_once demoRouteNoLease demoMissReply demoHotOracle
      () rfl rfl⟩

/-- C7: for every request with `cacheCandidate = false`, `route` issues no
cache operation at all, calls `child.route` exactly once, performs no
sleeps, and returns the child's reply. -/
theorem route_noncandidate_no_cache_ops {Req R : Type} (rt : Route Req R)
    (g : McGetReply) (l : Nat → McLeaseGetReply) (req : Req)
    (hc : rt.carbonLookasideHelper.cacheCandidate req = false) :
    (route rt g l req).ops = [] ∧ (route rt g l req).childCalls = 1 ∧
    (route rt g l req).sleeps = [] ∧
    (route rt g l req).reply = rt.childRoute req := by
  unfold route
  rw [hc]
  simp only [Bool.false_eq_true, if_false]
  exact ⟨trivial, trivial, trivial, trivial⟩

/-- Witness for C7 with the always-false candidate policy. -/
theorem route_noncandidate_no_cache_ops_witness :
    demoRouteNoCand.carbonLookasideHelper.cacheCandidate () = false ∧
    ((route demoRouteNoCand demoHitReply demoHotOracle ()).ops = [] ∧
     (route demoRouteNoCand demoHitReply demoHotOracle ()).childCalls = 1 ∧
     (route demoRouteNoCand demoHitReply demoHotOracle ()).sleeps = [] ∧
     (route demoRouteNoCand demoHitReply demoHotOracle ()).reply =
       demoRouteNoCand.childRoute ()) :=
  ⟨rfl,
    route_noncandidate_no_cache_ops demoRouteNoCand demoHitReply demoHotOracle
      () rfl⟩

/-- C5: for every write dispatched after a miss, the route appends exactly
one write operation: a `LEASE_SET` with the held token when leases are
enabled and the token is nonzero, otherwise a plain `SET`; in both cases it
carries the serialized child reply and the configured `ttl`. -/
theorem route_write_after_miss {Req R : Type} (rt : Route Req R)
    (g : McGetReply) (l : Nat → McLeaseGetReply) (req : Req)
    (hc : rt.carbonLookasideHelper.cacheCandidate req = true)
    (hr : (carbonLookasideGet rt (buildKey rt req) g l).reply = none) :
    (route rt g l req).ops =
      (carbonLookasideGet rt (buildKey rt req) g l).ops ++
      (if rt.leaseSettings.enableLeases ∧
          (carbonLookasideGet rt (buildKey rt req) g l).leaseToken ≠ 0 then
        [CacheOp.leaseSet (buildKey rt req) (rt.ser (rt.childRoute req)) rt.ttl
          (carbonLookasideGet rt (buildKey rt req) g l).leaseToken]
      else
        [CacheOp.set (buildKey rt req) (rt.ser (rt.childRoute req)) rt.ttl]) := by
  unfold route
  rw [hc]
  simp only [if_true, hr]
  unfold carbonLookasideSet carbonLookasideLeaseSet carbonLookasideSetPlain
  rfl

/-- Witness for C5: leases on, token 42 held, the write is a `LEASE_SET`
with that token, the serialized child reply and the ttl. -/
theorem route_write_after_miss_witness :
    demoRouteLease.carbonLookasideHelper.cacheCandidate () = true ∧
    (carbonLookasideGet demoRouteLease (buildKey demoRouteLease ())
      demoMissReply demoTokenOracle).reply = none ∧
    (route demoRouteLease demoMissReply demoTokenOracle ()).ops =
      (carbonLookasideGet demoRouteLease (buildKey demoRouteLease ())
        demoMissReply demoTokenOracle).ops ++
      (if demoRouteLease.leaseSettings.enableLeases ∧
          (carbonLookasideGet demoRouteLease (buildKey demoRouteLease ())
            demoMissReply demoTokenOracle).leaseToken ≠ 0 then
        [CacheOp.leaseSet (buildKey demoRouteLease ())
          (demoRouteLease.ser (demoRouteLease.childRoute ()))
          demoRouteLease.ttl
          (carbonLookasideGet demoRouteLease (buildKey demoRouteLease ())
            demoMissReply demoTokenOracle).leaseToken]
      else
        [CacheOp.set (buildKey demoRouteLease ())
          (demoRouteLease.ser (demoRouteLease.childRoute ()))
          demoRouteLease.ttl]) :=
  ⟨rfl, rfl,
    route_write_after_miss demoRouteLease demoMissReply demoTokenOracle ()
      rfl rfl⟩

/-! ### Claim theorems: lease protocol -/

/-- C3: in every lease-enabled read at most `numRetries + 1` LEASE_GETs are
issued; sleeps happen only before attempts after the first, with durations
starting at `initialWaitMs` and then doubling via `min (wait * 2) maxWaitMs`;
a miss with the hot-miss token 1 continues the loop; after `i` hot misses, a
hit with payload ends the loop returning the deserialized reply with token 0,
and a miss with token ≠ 1 ends it with that token and no cached reply;
exhausting all retries on hot misses yields no reply and token 0. -/
theorem carbonLookasideLeaseGet_protocol {Req R : Type} (rt : Route Req R)
    (key : String) (oracle : Nat → McLeaseGetReply) :
    (carbonLookasideLeaseGet rt key oracle).ops.length ≤
        (rt.leaseSettings.numRetries + 1).toNat ∧
    (carbonLookasideLeaseGet rt key oracle).sleeps =
      (List.range ((carbonLookasideLeaseGet rt key oracle).ops.length - 1)).map
        (waitSeqFrom rt.leaseSettings.maxWaitMs rt.leaseSettings.initialWaitMs) ∧
    (∀ i, i < (rt.leaseSettings.numRetries + 1).toNat →
      (∀ j, j < i → isHotMiss (oracle j)) →
      (((oracle i).result = McResult.hit ∧ ((oracle i).value).isSome = true →
        (carbonLookasideLeaseGet rt key oracle).reply =
          some (rt.deser (((oracle i).value).getD [])) ∧
        (carbonLookasideLeaseGet rt key oracle).leaseToken = 0 ∧
        (carbonLookasideLeaseGet rt key oracle).ops.length = i + 1) ∧
       ((oracle i).result = McResult.miss ∧ (oracle i).leaseToken ≠ 1 →
        (carbonLookasideLeaseGet rt key oracle).reply = none ∧
        (carbonLookasideLeaseGet rt key oracle).leaseToken =
          (oracle i).leaseToken ∧
        (carbonLookasideLeaseGet rt key oracle).ops.length = i + 1))) ∧
    ((∀ j, j < (rt.leaseSettings.numRetries + 1).toNat → isHotMiss (oracle j)) →
      (carbonLookasideLeaseGet rt key oracle).reply = none ∧
      (carbonLookasideLeaseGet rt key oracle).leaseToken = 0 ∧
      (carbonLookasideLeaseGet rt key oracle).ops.length =
        (rt.leaseSettings.numRetries + 1).toNat) := by
  unfold carbonLookasideLeaseGet
  refine ⟨(leaseGetLoop_ops rt.deser rt.leaseSettings.maxWaitMs key oracle
      ((rt.leaseSettings.numRetries + 1).toNat) 0
      rt.leaseSettings.initialWaitMs).1,
    leaseGetLoop_sleeps_zero rt.deser rt.leaseSettings.maxWaitMs key oracle
      ((rt.leaseSettings.numRetries + 1).toNat)
      rt.leaseSettings.initialWaitMs, ?_, ?_⟩
  · intro i hi hprev
    have hs := leaseGetLoop_settles rt.deser rt.leaseSettings.maxWaitMs key
      oracle i ((rt.leaseSettings.numRetries + 1).toNat) 0
      rt.leaseSettings.initialWaitMs hi
      (by intro j hj; simpa using hprev j hj)
    simpa using hs
  · intro hall
    exact leaseGetLoop_exhaust rt.deser rt.leaseSettings.maxWaitMs key oracle
      ((rt.leaseSettings.numRetries + 1).toNat) 0
      rt.leaseSettings.initialWaitMs
      (by intro j hj; simpa using hall j hj)

/-- Witness for C3, scenario S3: three hot misses then a miss with token
42; four LEASE_GETs, sleeps 2, 4, 8 ms, token 42, no cached reply. -/
theorem carbonLookasideLeaseGet_protocol_witness :
    (3 < (demoRouteLease.leaseSettings.numRetries + 1).toNat ∧
     (∀ j, j < 3 → isHotMiss (demoS3Oracle j)) ∧
     (demoS3Oracle 3).result = McResult.miss ∧
     (demoS3Oracle 3).leaseToken ≠ 1) ∧
    ((carbonLookasideLeaseGet demoRouteLease "p:k" demoS3Oracle).reply =
       none ∧
     (carbonLookasideLeaseGet demoRouteLease "p:k" demoS3Oracle).leaseToken =
       (demoS3Oracle 3).leaseToken ∧
     (carbonLookasideLeaseGet demoRouteLease "p:k" demoS3Oracle).ops.length =
       3 + 1) :=
  ⟨⟨by decide, by decide, by decide, by decide⟩,
    ((carbonLookasideLeaseGet_protocol demoRouteLease "p:k"
        demoS3Oracle).2.2.1 3 (by decide) (by decide)).2
      ⟨by decide, by decide⟩⟩

/-- C4 counterexample: leases enabled, a candidate request, every lease
reply is the hot-miss sentinel so the retry loop exhausts — yet the route
does issue a cache write: a plain `SET` carrying the serialized child
reply.  This refutes "issues no cache write at all". -/
theorem route_hotmiss_exhausted_counterexample :
    demoRouteLease.leaseSettings.enableLeases = true ∧
    demoRouteLease.carbonLookasideHelper.cacheCandidate () = true ∧
    (∀ j, j < (demoRouteLease.leaseSettings.numRetries + 1).toNat →
      isHotMiss (demoHotOracle j)) ∧
    (carbonLookasideGet demoRouteLease (buildKey demoRouteLease ())
      demoMissReply demoHotOracle).reply = none ∧
    List.filter isWriteOp
        (route demoRouteLease demoMissReply demoHotOracle ()).ops =
      [CacheOp.set "p:k" [5] 10] :=
  ⟨rfl, rfl, by decide, by decide, by decide⟩

/-- C4 amended: when the lease read exhausts all its retries still seeing
the hot-miss sentinel, the route proceeds to the child once and issues a
plain `SET` — no lease write is attempted (no valid token is held), but a
non-lease cache write is still dispatched. -/
theorem route_hotmiss_exhausted_plain_set {Req R : Type} (rt : Route Req R)
    (g : McGetReply) (l : Nat → McLeaseGetReply) (req : Req)
    (hle : rt.leaseSettings.enableLeases = true)
    (hc : rt.carbonLookasideHelper.cacheCandidate req = true)
    (hhot : ∀ j, j < (rt.leaseSettings.numRetries + 1).toNat →
      isHotMiss (l j)) :
    (route rt g l req).childCalls = 1 ∧
    (route rt g l req).reply = rt.childRoute req ∧
    (route rt g l req).ops =
      (carbonLookasideGet rt (buildKey rt req) g l).ops ++
        [CacheOp.set (buildKey rt req) (rt.ser (rt.childRoute req)) rt.ttl] := by
  have hex := leaseGetLoop_exhaust rt.deser rt.leaseSettings.maxWaitMs
    (buildKey rt req) l ((rt.leaseSettings.numRetries + 1).toNat) 0
    rt.leaseSettings.initialWaitMs (by intro j hj; simpa using hhot j hj)
  have hread : (carbonLookasideGet rt (buildKey rt req) g l).reply = none ∧
      (carbonLookasideGet rt (buildKey rt req) g l).leaseToken = 0 := by
    unfold carbonLookasideGet carbonLookasideLeaseGet
    rw [hle]
    simp only [if_true]
    exact ⟨hex.1, hex.2.1⟩
  unfold route
  rw [hc]
  simp only [if_true, hread.1]
  refine ⟨trivial, trivial, ?_⟩
  rw [hread.2]
  unfold carbonLookasideSet carbonLookasideSetPlain
  rw [if_neg (by simp)]

/-- Witness for the amended C4 at the concrete hot-miss instance. -/
theorem route_hotmiss_exhausted_plain_set_witness :
    (demoRouteLease.leaseSettings.enableLeases = true ∧
     demoRouteLease.carbonLookasideHelper.cacheCandidate () = true ∧
     (∀ j, j < (demoRouteLease.leaseSettings.numRetries + 1).toNat →
       isHotMiss (demoHotOracle j))) ∧
    ((route demoRouteLease demoMissReply demoHotOracle ()).childCalls = 1 ∧
     (route demoRouteLease demoMissReply demoHotOracle ()).reply =
       demoRouteLease.childRoute () ∧
     (route demoRouteLease demoMissReply demoHotOracle ()).ops =
       (carbonLookasideGet demoRouteLease (buildKey demoRouteLease ())
         demoMissReply demoHotOracle).ops ++
         [CacheOp.set (buildKey demoRouteLease ())
           (demoRouteLease.ser (demoRouteLease.childRoute ()))
           demoRouteLease.ttl]) :=
  ⟨⟨rfl, rfl, by decide⟩,
    route_hotmiss_exhausted_plain_set demoRouteLease demoMissReply
      demoHotOracle () rfl rfl (by decide)⟩

/-- C10: for every lease-enabled read where, after `k` hot misses, the
LEASE_GET at attempt `k` returns a miss with lease token 0, the read ends
immediately (exactly `k + 1` LEASE_GETs), with no cached reply and output
token 0, and the subsequent write for that request is a plain `SET`, not a
`LEASE_SET`. -/
theorem route_lease_miss_token_zero {Req R : Type} (rt : Route Req R)
    (g : McGetReply) (l : Nat → McLeaseGetReply) (req : Req) (k : Nat)
    (hle : rt.leaseSettings.enableLeases = true)
    (hc : rt.carbonLookasideHelper.cacheCandidate req = true)
    (hk : k < (rt.leaseSettings.numRetries + 1).toNat)
    (hprev : ∀ j, j < k → isHotMiss (l j))
    (hmiss : (l k).result = McResult.miss)
    (htok : (l k).leaseToken = 0) :
    (carbonLookasideGet rt (buildKey rt req) g l).reply = none ∧
    (carbonLookasideGet rt (buildKey rt req) g l).leaseToken = 0 ∧
    (carbonLookasideGet rt (buildKey rt req) g l).ops.length = k + 1 ∧
    (route rt g l req).ops =
      (carbonLookasideGet rt (buildKey rt req) g l).ops ++
        [CacheOp.set (buildKey rt req) (rt.ser (rt.childRoute req)) rt.ttl] := by
  have hneq : (l k).leaseToken ≠ 1 := by
    rw [htok]
    decide
  have hset := (leaseGetLoop_settles rt.deser rt.leaseSettings.maxWaitMs
    (buildKey rt req) l k ((rt.leaseSettings.numRetries + 1).toNat) 0
    rt.leaseSettings.initialWaitMs hk
    (by intro j hj; simpa using hprev j hj)).2
    (by simp only [Nat.zero_add]; exact ⟨hmiss, hneq⟩)
  have hread : (carbonLookasideGet rt (buildKey rt req) g l).reply = none ∧
      (carbonLookasideGet rt (buildKey rt req) g l).leaseToken = 0 ∧
      (carbonLookasideGet rt (buildKey rt req) g l).ops.length = k + 1 := by
    unfold carbonLookasideGet carbonLookasideLeaseGet
    rw [hle]
    simp only [if_true]
    refine ⟨hset.1, ?_, hset.2.2⟩
    rw [hset.2.1]
    simpa using htok
  refine ⟨hread.1, hread.2.1, hread.2.2, ?_⟩
  unfold route
  rw [hc]
  simp only [if_true, hread.1]
  rw [hread.2.1]
  unfold carbonLookasideSet carbonLookasideSetPlain
  rw [if_neg (by simp)]

/-- Witness for C10: a miss with token 0 on the very first attempt. -/
theorem route_lease_miss_token_zero_witness :
    (demoRouteLease.leaseSettings.enableLeases = true ∧
     demoRouteLease.carbonLookasideHelper.cacheCandidate () = true ∧
     0 < (demoRouteLease.leaseSettings.numRetries + 1).toNat ∧
     (demoZeroOracle 0).result = McResult.miss ∧
     (demoZeroOracle 0).leaseToken = 0) ∧
    ((carbonLookasideGet demoRouteLease (buildKey demoRouteLease ())
       demoMissReply demoZeroOracle).reply = none ∧
     (carbonLookasideGet demoRouteLease (buildKey demoRouteLease ())
       demoMissReply demoZeroOracle).leaseToken = 0 ∧
     (carbonLookasideGet demoRouteLease (buildKey demoRouteLease ())
       demoMissReply demoZeroOracle).ops.length = 0 + 1 ∧
     (route demoRouteLease demoMissReply demoZeroOracle ()).ops =
       (carbonLookasideGet demoRouteLease (buildKey demoRouteLease ())
         demoMissReply demoZeroOracle).ops ++
         [CacheOp.set (buildKey demoRouteLease ())
           (demoRouteLease.ser (demoRouteLease.childRoute ()))
           demoRouteLease.ttl]) :=
  ⟨⟨rfl, rfl, by decide, rfl, rfl⟩,
    route_lease_miss_token_zero demoRouteLease demoMissReply demoZeroOracle
      () 0 rfl rfl (by decide) (by omega) rfl rfl⟩

/-! ### Claim theorems: key composition and the factory -/

/-- Every operation issued by the read path carries the given key. -/
theorem carbonLookasideGet_ops_key {Req R : Type} (rt : Route Req R)
    (key : String) (g : McGetReply) (l : Nat → McLeaseGetReply) :
    ∀ op ∈ (carbonLookasideGet rt key g l).ops, opKey op = key := by
  unfold carbonLookasideGet carbonLookasideLeaseGet
  by_cases hle : rt.leaseSettings.enableLeases = true
  · rw [if_pos hle]
    intro op hop
    have hform := (leaseGetLoop_ops rt.deser rt.leaseSettings.maxWaitMs key l
      ((rt.leaseSettings.numRetries + 1).toNat) 0
      rt.leaseSettings.initialWaitMs).2 op hop
    rw [hform]
    rfl
  · rw [if_neg hle]
    intro op hop
    simp only [List.mem_singleton] at hop
    rw [hop]
    rfl

/-- Every operation issued by the write path carries the given key. -/
theorem carbonLookasideSet_ops_key {Req R : Type} (rt : Route Req R)
    (key : String) (reply : R) (leaseToken : Int) :
    ∀ op ∈ carbonLookasideSet rt key reply leaseToken, opKey op = key := by
  unfold carbonLookasideSet carbonLookasideLeaseSet carbonLookasideSetPlain
  by_cases h : rt.leaseSettings.enableLeases = true ∧ leaseToken ≠ 0
  · rw [if_pos h]
    intro op hop
    simp only [List.mem_singleton] at hop
    rw [hop]
    rfl
  · rw [if_neg h]
    intro op hop
    simp only [List.mem_singleton] at hop
    rw [hop]
    rfl

/-- Every cache operation a candidate `route(req)` call issues — the read
and any subsequent write — carries the one composed key `buildKey rt req`. -/
theorem route_ops_key {Req R : Type} (rt : Route Req R) (g : McGetReply)
    (l : Nat → McLeaseGetReply) (req : Req)
    (hc : rt.carbonLookasideHelper.cacheCandidate req = true) :
    ∀ op ∈ (route rt g l req).ops, opKey op = buildKey rt req := by
  unfold route
  rw [hc]
  simp only [if_true]
  cases hrd : (carbonLookasideGet rt (buildKey rt req) g l).reply with
  | some r =>
    intro op hop
    exact carbonLookasideGet_ops_key rt (buildKey rt req) g l op hop
  | none =>
    intro op hop
    simp only [List.mem_append] at hop
    rcases hop with hop | hop
    · exact carbonLookasideGet_ops_key rt (buildKey rt req) g l op hop
    · exact carbonLookasideSet_ops_key rt (buildKey rt req)
        (rt.childRoute req)
        (carbonLookasideGet rt (buildKey rt req) g l).leaseToken op hop

/-- C6: for every cacheable request, every cache operation (read and write)
in one `route(req)` call uses the single key
`keyPrefix ++ helper.buildKey req ++ keySuffix`, with `keySuffix` computed
at construction: empty when `keySplitSize ≤ 1`, otherwise `":ks"` followed
by the decimal of `hostid % keySplitSize`, a value in `[0, keySplitSize)`. -/
theorem route_key_consistency {Req R : Type} (child : Req → R)
    (keyPrefix : String) (keySplitSize hostid : Nat) (ttl : Int)
    (helper : Helper Req) (ls : LeaseSettings) (ser : R → List Nat)
    (deser : List Nat → R) (g : McGetReply) (l : Nat → McLeaseGetReply)
    (req : Req)
    (hc : helper.cacheCandidate req = true) :
    (∀ op ∈ (route (mkCarbonLookasideRoute child keyPrefix keySplitSize
          hostid ttl helper ls ser deser) g l req).ops,
        opKey op = keyPrefix ++ helper.buildKey req ++
          buildKeySuffix keySplitSize hostid) ∧
    (keySplitSize ≤ 1 → buildKeySuffix keySplitSize hostid = "") ∧
    (1 < keySplitSize →
      buildKeySuffix keySplitSize hostid =
        ":ks" ++ toString (hostid % keySplitSize) ∧
      hostid % keySplitSize < keySplitSize) := by
  refine ⟨?_, ?_, ?_⟩
  · intro op hop
    exact route_ops_key
      (mkCarbonLookasideRoute child keyPrefix keySplitSize hostid ttl helper
        ls ser deser) g l req hc op hop
  · intro h
    unfold buildKeySuffix
    rw [if_pos h]
  · intro h
    have hnot : ¬ (keySplitSize ≤ 1) := by omega
    constructor
    · unfold buildKeySuffix
      rw [if_neg hnot]
    · exact Nat.mod_lt hostid (by omega)

/-- Witness for C6, scenario S5: `keySplitSize = 4`, `hostid = 6`, so the
suffix is `":ks2"` and every operation uses the key `"p:k:ks2"`. -/
theorem route_key_consistency_witness :
    demoHelper.cacheCandidate () = true ∧
    ((∀ op ∈ (route (mkCarbonLookasideRoute (fun _ => (5 : Nat)) "p:" 4 6 10
          demoHelper {} (fun n => [n]) (fun bs => bs.headD 0)) demoMissReply
          demoHotOracle ()).ops,
        opKey op = "p:" ++ demoHelper.buildKey () ++ buildKeySuffix 4 6) ∧
     (4 ≤ 1 → buildKeySuffix 4 6 = "") ∧
     (1 < 4 → buildKeySuffix 4 6 = ":ks" ++ toString (6 % 4) ∧ 6 % 4 < 4)) :=
  ⟨rfl,
    route_key_consistency (fun _ => (5 : Nat)) "p:" 4 6 10 demoHelper {}
      (fun n => [n]) (fun bs => bs.headD 0) demoMissReply demoHotOracle ()
      rfl⟩

/-- C9: if the factory cannot obtain a cache router or cannot create a
cache client, it returns the raw child handle unwrapped, so the resulting
tree gives, on every request, the same reply and the same traversal as the
bare child. -/
theorem createRoute_degrades_to_child {Req R : Type}
    (child : ChildHandle Req R) (routerCreated clientCreated : Bool)
    (keyPrefix : String) (keySplitSize hostid : Nat) (ttl : Int)
    (helper : Helper Req) (ls : LeaseSettings) (ser : R → List Nat)
    (deser : List Nat → R)
    (h : routerCreated = false ∨ clientCreated = false) :
    createCarbonLookasideRoute child routerCreated clientCreated keyPrefix
        keySplitSize hostid ttl helper ls ser deser = Handle.raw child ∧
    (∀ (g : McGetReply) (l : Nat → McLeaseGetReply) (req : Req),
      (createCarbonLookasideRoute child routerCreated clientCreated keyPrefix
        keySplitSize hostid ttl helper ls ser deser).routeReply g l req =
        child.route req) ∧
    (∀ req : Req,
      (createCarbonLookasideRoute child routerCreated clientCreated keyPrefix
        keySplitSize hostid ttl helper ls ser deser).traverseVisits req =
        child.traverse req) := by
  have hraw : createCarbonLookasideRoute child routerCreated clientCreated
      keyPrefix keySplitSize hostid ttl helper ls ser deser =
      Handle.raw child := by
    unfold createCarbonLookasideRoute
    rcases h with h | h
    · rw [if_pos h]
    · by_cases hr : routerCreated = false
      · rw [if_pos hr]
      · rw [if_neg hr, if_pos h]
  refine ⟨hraw, ?_, ?_⟩
  · intro g l req
    rw [hraw]
    rfl
  · intro req
    rw [hraw]
    rfl

/-- Witness for C9: client creation fails, router creation succeeds. -/
theorem createRoute_degrades_to_child_witness :
    (true = false ∨ false = false) ∧
    (createCarbonLookasideRoute demoChildHandle true false "p:" 1 0 10
        demoHelper {} (fun n => [n]) (fun bs => bs.headD 0) =
      Handle.raw demoChildHandle ∧
     (∀ (g : McGetReply) (l : Nat → McLeaseGetReply) (req : Unit),
       (createCarbonLookasideRoute demoChildHandle true false "p:" 1 0 10
         demoHelper {} (fun n => [n]) (fun bs => bs.headD 0)).routeReply g l
         req = demoChildHandle.route req) ∧
     (∀ req : Unit,
       (createCarbonLookasideRoute demoChildHandle true false "p:" 1 0 10
         demoHelper {} (fun n => [n]) (fun bs => bs.headD 0)).traverseVisits
         req = demoChildHandle.traverse req)) :=
  ⟨Or.inr rfl,
    createRoute_degrades_to_child demoChildHandle true false "p:" 1 0 10
      demoHelper {} (fun n => [n]) (fun bs => bs.headD 0) (Or.inr rfl)⟩

end CarbonLookaside
